import Mathlib

/-!
Verification of the CSPC RAG search pipeline
(`Query_Corpos_PanelGroups_CloudDeployement.py`).

The Python source is shallowly embedded: strings are modelled through their
character lists (so every operation is structural and kernel-evaluable),
fallible store calls return `Except`, and `try`/`except` blocks become
explicit catch combinators.  Machine floats only occur as cross-encoder
relevance scores, which the pipeline merely compares; they are modelled by
integers, which preserves every ordering-related statement.
-/

namespace CSPC

/-! ## Python string primitives -/

/-- Python `str.split(sep)` for a one-character separator, on char lists.
`"".split(":") = [""]` and separators at the ends produce empty segments,
exactly as in Python. -/
def pySplitChar (sep : Char) : List Char → List (List Char)
  | [] => [[]]
  | c :: rest =>
    let r := pySplitChar sep rest
    if c = sep then [] :: r
    else
      match r with
      | [] => [[c]]
      | h :: t => (c :: h) :: t

/-- Digit body of a Python integer literal: digits with single underscores
allowed between digits (`int("1_0") = 10`, `int("1__0")` and `int("1_")`
raise).  `acc` is the value accumulated so far. -/
def pyIntDigits (acc : Nat) : List Char → Option Nat
  | [] => some acc
  | '_' :: c :: rest =>
    if c.isDigit then pyIntDigits (acc * 10 + (c.toNat - 48)) rest else none
  | c :: rest =>
    if c = '_' then none
    else if c.isDigit then pyIntDigits (acc * 10 + (c.toNat - 48)) rest else none

/-- Strip leading and trailing whitespace (Python `str.strip()` with no
arguments, restricted to ASCII whitespace). -/
def pyStrip (l : List Char) : List Char :=
  ((l.dropWhile Char.isWhitespace).reverse.dropWhile Char.isWhitespace).reverse

/-- Python `int(s)` on a character list: optional surrounding whitespace, an
optional sign, then a non-empty digit body.  `none` models a raised
`ValueError`. -/
def pyIntL (l : List Char) : Option Int :=
  match pyStrip l with
  | '+' :: c :: rest =>
    if c.isDigit then (pyIntDigits (c.toNat - 48) rest).map Int.ofNat else none
  | '-' :: c :: rest =>
    if c.isDigit then (pyIntDigits (c.toNat - 48) rest).map (fun n => -(n : Int)) else none
  | c :: rest =>
    if c.isDigit then (pyIntDigits (c.toNat - 48) rest).map Int.ofNat else none
  | [] => none

/-- Python `int(s)` on strings. -/
def pyInt (s : String) : Option Int := pyIntL s.data

/-- Python `str.isdigit()` (ASCII model): non-empty and all digits. -/
def pyIsDigit (l : List Char) : Bool := !l.isEmpty && l.all Char.isDigit

/-- Numeric value of a digit string (what Python `int` returns on an
`isdigit` string). -/
def digitsToNat (l : List Char) : Nat := l.foldl (fun a c => a * 10 + (c.toNat - 48)) 0

/-- Decimal digits of `n`; the fuel argument only bounds recursion depth and
is always passed as `n + 1`, which suffices. -/
def natToDigits : Nat → Nat → List Char
  | 0, _ => []
  | fuel + 1, n =>
    if n < 10 then [Char.ofNat (48 + n)]
    else natToDigits fuel (n / 10) ++ [Char.ofNat (48 + n % 10)]

/-- Python `str(n)` for a natural number. -/
def natToStr (n : Nat) : String := ⟨natToDigits (n + 1) n⟩

/-- Python `str(n)` for an integer. -/
def intToStr : Int → String
  | .ofNat n => natToStr n
  | .negSucc m => ⟨'-' :: (natToStr (m + 1)).data⟩

/-- `l` ends with `suf` (Python `str.endswith`). -/
def endsWithL (l suf : List Char) : Bool := suf.isSuffixOf l

/-- Drop the last `n` characters (Python slice `s[:-n]` for `0 < n ≤ len`). -/
def dropLastL (l : List Char) (n : Nat) : List Char := l.take (l.length - n)

/-- Python `str.removesuffix`. -/
def removeSuffixL (l suf : List Char) : List Char :=
  if endsWithL l suf then dropLastL l suf.length else l

/-! ## TimeCode (`time_to_seconds`, lines 366-379)

A direct transcription of the source: split on `":"`, accept exactly three
or two segments, convert each with `int`, and soft-fail to `0` on any other
shape or any `ValueError` (the `try`/`except` in the source). -/

def time_to_seconds (time_str : String) : Int :=
  if time_str = "" || time_str = "—" then 0
  else
    match pySplitChar ':' time_str.data with
    | [a, b, c] =>
      match pyIntL a, pyIntL b, pyIntL c with
      | some h, some m, some s => h * 3600 + m * 60 + s
      | _, _, _ => 0
    | [a, b] =>
      match pyIntL a, pyIntL b with
      | some m, some s => m * 60 + s
      | _, _ => 0
    | _ => 0

/-! ## AudioLocator suffix stripping

Two distinct implementations exist in the source:
* `main` (lines 1023-1031): `if endswith "_transcript.txt" … elif endswith
  ".txt" …` then an unconditional `if endswith "_transcript"` check;
* `find_audio_file` (lines 356-358): a `for` loop applying `removesuffix`
  for each of the three suffixes in order, unconditionally. -/

/-- The stripping chain of `main` (S3 URL derivation). -/
def stripMainL (name : List Char) : List Char :=
  let a :=
    if endsWithL name ("_transcript.txt".data) then dropLastL name ("_transcript.txt".data.length)
    else if endsWithL name (".txt".data) then dropLastL name (".txt".data.length)
    else name
  if endsWithL a ("_transcript".data) then dropLastL a ("_transcript".data.length) else a

/-- `main`'s cleaned audio file name: stripped base plus `".mp3"`. -/
def mainAudioName (name : String) : String := ⟨stripMainL name.data ++ ".mp3".data⟩

/-- The base-name computation of `find_audio_file`: `removesuffix` applied
for every suffix in the list, in order. -/
def findBaseL (name : List Char) : List Char :=
  ["_transcript.txt".data, ".txt".data, "_transcript".data].foldl removeSuffixL name

/-- `find_audio_file`'s base name, as a string. -/
def findBase (name : String) : String := ⟨findBaseL name.data⟩

/-- Modelled from the spec's words (§4.2): strip a trailing
`"_transcript.txt"`, **else** a trailing `".txt"`, then — after either — a
trailing `"_transcript"`; an ordered first-match-wins chain.  Used to compare
the two source implementations against the specified chain. -/
def specChainStripL (name : List Char) : List Char :=
  let a :=
    if endsWithL name ("_transcript.txt".data) then removeSuffixL name ("_transcript.txt".data)
    else removeSuffixL name (".txt".data)
  removeSuffixL a ("_transcript".data)

/-! ## Stable keyed sorting (Python `list.sort` / `sorted`)

CPython's sort is stable; `reverse=True` keeps equal-key elements in their
original order.  Both directions are modelled by insertion sorts that place
the incoming (originally earlier) element before any equal-key element. -/

/-- Insert `x` before the first element whose key is `≥ k x` (stable
ascending insertion). -/
def insertAscK {α : Type} {κ : Type} [LinearOrder κ] (k : α → κ) (x : α) : List α → List α
  | [] => [x]
  | y :: ys => if k y < k x then y :: insertAscK k x ys else x :: y :: ys

/-- Stable ascending sort by key: Python `sorted(l, key=k)`. -/
def sortAscK {α : Type} {κ : Type} [LinearOrder κ] (k : α → κ) (l : List α) : List α :=
  l.foldr (insertAscK k) []

/-- Insert `x` before the first element whose key is `≤ k x` (stable
descending insertion). -/
def insertDescK {α : Type} {κ : Type} [LinearOrder κ] (k : α → κ) (x : α) : List α → List α
  | [] => [x]
  | y :: ys => if k x < k y then y :: insertDescK k x ys else x :: y :: ys

/-- Stable descending sort by key: Python `l.sort(key=k, reverse=True)`. -/
def sortDescK {α : Type} {κ : Type} [LinearOrder κ] (k : α → κ) (l : List α) : List α :=
  l.foldr (insertDescK k) []

/-! ## Data model: DocChunk retrieval objects

The fields requested by the hybrid query in `main` (`return_properties`,
lines 861-864).  A property can be missing (`None`), hence the `Option`s;
`panel_theme` is the array-typed theme attribute.  The retrieval objects also
carry the `_rerank_score` attribute that the rerank step assigns (`none`
before assignment). -/

structure CProps where
  text : Option String
  file_name : Option String
  chunk_start_time : Option String
  chunk_id : Option String
  chunk_speakers : Option String
  panel_theme : List String
  panel_code : Option String
  doc_id : Option String
deriving DecidableEq

structure RObj where
  properties : CProps
  rerank_score : Option Int
deriving DecidableEq

/-! ## Reranker (`main`, lines 877-884)

`scores = reranker.predict(pairs)` with `pairs = [(question,
o.properties.get("text", "")) for o in objects]`, then `obj._rerank_score =
float(s)` for each, then `objects.sort(key=..., reverse=True)`.  The
cross-encoder is an external model, abstracted as a function from a
(question, text) pair to a score. -/

def rerankStep (predict : String × String → Int) (question : String)
    (objects : List RObj) : List RObj :=
  let pairs := objects.map (fun o => (question, o.properties.text.getD ""))
  let scores := pairs.map predict
  let objects' := List.zipWith (fun o s => { o with rerank_score := some s }) objects scores
  sortDescK (fun o => o.rerank_score.getD 0) objects'

/-- The list the candidates become after score attachment (before sorting):
each object with its own `(question, text)` score written into
`rerank_score`. -/
def scoredOf (predict : String × String → Int) (question : String)
    (objects : List RObj) : List RObj :=
  objects.map (fun o =>
    { o with rerank_score := some (predict (question, o.properties.text.getD "")) })

/-! ## ResultAssembler (`main`, lines 914-933 and 988) -/

/-- First maximal run of digits in a string
(`re.search(r'(\d+)', file_name)`). -/
def firstDigitRunL (l : List Char) : Option (List Char) :=
  match l.dropWhile (fun c => !c.isDigit) with
  | [] => none
  | c :: rest => some (c :: rest.takeWhile Char.isDigit)

/-- Group key of a chunk: `panel_code` when truthy, else the first digit run
of `file_name`, else `"Unknown"` (lines 917-922). -/
def keyOf (o : RObj) : String :=
  let pc := o.properties.panel_code.getD ""
  if pc ≠ "" then pc
  else
    match firstDigitRunL (o.properties.file_name.getD "").data with
    | some ds => ⟨ds⟩
    | none => "Unknown"

/-- `panels_dict[key].append(item)` on an insertion-ordered dictionary
(Python dicts preserve insertion order). -/
def addItem (key : String) (it : Nat × RObj) :
    List (String × List (Nat × RObj)) → List (String × List (Nat × RObj))
  | [] => [(key, [it])]
  | (k, its) :: rest =>
    if k = key then (k, its ++ [it]) :: rest else (k, its) :: addItem key it rest

/-- The 1-based dense enumeration `ranked = [{"rank": i+1, "obj": o} ...]`. -/
def rankedOf (objects : List RObj) : List (Nat × RObj) :=
  (List.range' 1 objects.length).zip objects

/-- `panels_dict` after inserting every ranked item. -/
def groupFold (items : List (Nat × RObj)) : List (String × List (Nat × RObj)) :=
  items.foldl (fun gs it => addItem (keyOf it.2) it gs) []

/-- One step of the running minimum over ranks. -/
def minOp (m : Option Nat) (z : Nat × RObj) : Option Nat :=
  some (match m with
        | none => z.1
        | some v => Nat.min v z.1)

/-- `min(item["rank"] for item in items)` as an option-valued fold (`none`
only on the empty list, which grouping never produces). -/
def minRankOpt (items : List (Nat × RObj)) : Option Nat :=
  items.foldl minOp none

/-- The assembler: enumerate, group by panel key, order groups by their
minimum contained rank (`panel_order.sort(key=lambda x: x[1])`), and sort
each group's items by rank (`sorted(items, key=lambda x: x["rank"])`). -/
def assemble (objects : List RObj) : List (String × List (Nat × RObj)) :=
  let gs := groupFold (rankedOf objects)
  let ordered := sortAscK (fun g => (minRankOpt g.2).getD 0) gs
  ordered.map (fun g => (g.1, sortAscK (fun it => it.1) g.2))

/-! ## Retrieval filters (`main`, lines 832-844) -/

/-- Python `selected_panel.split(" - ")[0]`: the prefix up to the first
occurrence of the separator. -/
def upToSep : List Char → List Char → List Char
  | [], _ => []
  | c :: rest, sep => if sep.isPrefixOf (c :: rest) then [] else c :: upToSep rest sep

/-- Python `str.replace(pat, rep)` for a non-empty pattern; the fuel is
always the length of the subject, which suffices. -/
def replaceAllAux (pat rep : List Char) : Nat → List Char → List Char
  | 0, l => l
  | fuel + 1, l =>
    match l with
    | [] => []
    | c :: rest =>
      if pat.isPrefixOf l then rep ++ replaceAllAux pat rep fuel (l.drop pat.length)
      else c :: replaceAllAux pat rep fuel rest

/-- `selected_panel.split(" - ")[0].replace("Panel ", "").strip()`. -/
def extractPanelCode (display : String) : String :=
  let seg := upToSep display.data (" - ".data)
  ⟨pyStrip (replaceAllAux ("Panel ".data) [] seg.length seg)⟩

/-- `Filter.by_property("panel_theme").contains_any([selected_theme])` on the
array-typed theme attribute. -/
def themeFilter (t : String) (o : RObj) : Bool := o.properties.panel_theme.contains t

/-- `Filter.by_property("panel_code").equal(panel_code)`. -/
def panelFilter (code : String) (o : RObj) : Bool := o.properties.panel_code.getD "" == code

/-- The `filters` list built in `main`: theme predicate appended first, then
the panel predicate. -/
def searchFilters (selected_theme selected_panel : String) : List (RObj → Bool) :=
  (if selected_theme ≠ "All" then [themeFilter selected_theme] else []) ++
    (if selected_panel ≠ "All"
     then [panelFilter (extractPanelCode selected_panel)] else [])

/-- `where = None` / `filters[0]` / `filters[0] & filters[1]`. -/
def whereOf : List (RObj → Bool) → Option (RObj → Bool)
  | [] => none
  | [f] => some f
  | f :: g :: _ => some (fun o => f o && g o)

/-- The store applies the optional conjunctive predicate to its contents. -/
def applyWhere (w : Option (RObj → Bool)) (chunks : List RObj) : List RObj :=
  match w with
  | none => chunks
  | some p => chunks.filter p

/-- Result set of the retrieval under the two UI selections, as far as
filtering is concerned. -/
def retrieveFiltered (selected_theme selected_panel : String) (chunks : List RObj) :
    List RObj :=
  applyWhere (whereOf (searchFilters selected_theme selected_panel)) chunks

/-! ## CSPC_Panels metadata store

The secondary Weaviate collection is external; its query entry points are
abstracted as `Except`-returning functions (an `error` models a raised
exception, e.g. a connection failure or a filter/property type mismatch).
Property values relevant to the claims keep their stored type:
`panel_code` can be stored as a string or as an integer. -/

inductive PyErr where
  | connFail
  | typeMismatch
  | loadFail
  | other (msg : String)
deriving DecidableEq

instance {ε α : Type} [DecidableEq ε] [DecidableEq α] : DecidableEq (Except ε α) := fun x y =>
  match x, y with
  | .ok a, .ok b =>
    if h : a = b then isTrue (by rw [h]) else isFalse (by intro hc; cases hc; exact h rfl)
  | .error a, .error b =>
    if h : a = b then isTrue (by rw [h]) else isFalse (by intro hc; cases hc; exact h rfl)
  | .ok _, .error _ => isFalse (by intro hc; cases hc)
  | .error _, .ok _ => isFalse (by intro hc; cases hc)

inductive PyScalar where
  | str (s : String)
  | int (n : Int)
deriving DecidableEq

/-- A raw property value that may be a scalar string or a list of strings
(`photo_url` and friends are sometimes list-typed). -/
inductive PyVal where
  | str (s : String)
  | list (l : List String)
deriving DecidableEq

/-- Python truthiness of a scalar (`if panel_code:`). -/
def scalarTruthy : PyScalar → Bool
  | .str s => s ≠ ""
  | .int n => n ≠ 0

/-- Python `str()` / f-string formatting of a scalar. -/
def scalarStr : PyScalar → String
  | .str s => s
  | .int n => intToStr n

/-- Properties of one CSPC_Panels record (`response.objects[i].properties`);
`none` models a missing key. -/
structure PanelProps where
  panel_code : Option PyScalar
  title : Option String
  theme : Option String
  photo_url : Option PyVal
  speaker_photo_url : Option PyVal
  organized_by : Option String
  panel_organized_by : Option String
  speakers : Option (List String)
  panel_date : Option String
  abstract : Option String
  panel_url : Option String
  external_details_url : Option String
deriving DecidableEq

/-- `_first_or_value` (lines 273-277): list values collapse to their first
element, empty lists to `None`; scalars pass through. -/
def firstOrValue : Option PyVal → Option String
  | some (.list (x :: _)) => some x
  | some (.list []) => none
  | some (.str s) => some s
  | none => none

/-- The dict built and returned on a successful lookup (lines 279-292,
without the `_raw` debugging echo). -/
structure PanelMeta where
  panel_code : Option PyScalar
  title : String
  theme : String
  photo_url : Option String
  speaker_photo_url : Option String
  organized_by : String
  speakers : List String
  panel_date : String
  abstract : String
  panel_url : String
  external_details_url : String
deriving DecidableEq

/-- `panel_data.get("organized_by") or panel_data.get("panel_organized_by", "")`:
Python `or` falls through on falsy values (`None` or `""`). -/
def organizedByOf (p : PanelProps) : String :=
  match p.organized_by with
  | some s => if s ≠ "" then s else p.panel_organized_by.getD ""
  | none => p.panel_organized_by.getD ""

def extractMeta (p : PanelProps) : PanelMeta :=
  { panel_code := p.panel_code
    title := p.title.getD ""
    theme := p.theme.getD ""
    photo_url := firstOrValue p.photo_url
    speaker_photo_url := firstOrValue p.speaker_photo_url
    organized_by := organizedByOf p
    speakers := p.speakers.getD []
    panel_date := p.panel_date.getD ""
    abstract := p.abstract.getD ""
    panel_url := p.panel_url.getD ""
    external_details_url := p.external_details_url.getD "" }

/-- The CSPC_Panels collection handle: equality-filtered fetches with a
string-typed or integer-typed value, and the capped full scan
(`fetch_objects(limit=1000)`). -/
structure PanelsColl where
  fetchEqStr : String → Except PyErr (List PanelProps)
  fetchEqInt : Int → Except PyErr (List PanelProps)
  fetchAll : Except PyErr (List PanelProps)

/-- The Weaviate client: `client.collections.get("CSPC_Panels")`. -/
structure WClient where
  getPanels : Except PyErr PanelsColl

/-- A Python `try`/`except` block: run the body, feed a raised exception to
the handler. -/
def pyCatch {α : Type} (body : Except PyErr α) (handler : PyErr → Except PyErr α) :
    Except PyErr α :=
  match body with
  | .ok a => .ok a
  | .error e => handler e

/-- `get_panel_metadata_from_cspc_panels` (lines 232-296).  `Option PanelMeta`
is the returned dict: `none` is the empty dict `{}`.  The string-typed
equality fetch is tried first; only if it raises is the value coerced with
`int(...)` and the integer-typed fetch tried; any failure there returns `{}`
(inner `except`), and any other raise is absorbed by the outer `except`. -/
def get_panel_metadata (client : WClient) (panel_code : String) :
    Except PyErr (Option PanelMeta) :=
  if panel_code = "" then .ok none
  else
    pyCatch
      (match client.getPanels with
       | .error e => .error e
       | .ok coll =>
         let respOpt : Option (List PanelProps) :=
           match coll.fetchEqStr panel_code with
           | .ok objs => some objs
           | .error _ =>
             match pyInt panel_code with
             | some n =>
               match coll.fetchEqInt n with
               | .ok objs => some objs
               | .error _ => none
             | none => none
         match respOpt with
         | none => .ok none
         | some [] => .ok none
         | some (o :: _) => .ok (some (extractMeta o)))
      (fun _ => .ok none)

/-- `get_all_themes` (lines 303-319): collect truthy themes into a set and
return them sorted; any raise yields `[]`. -/
def get_all_themes (client : WClient) : Except PyErr (List String) :=
  pyCatch
    (match client.getPanels with
     | .error e => .error e
     | .ok coll =>
       match coll.fetchAll with
       | .error e => .error e
       | .ok objs =>
         let themes := objs.foldl
           (fun acc o =>
             match o.theme with
             | some t => if t ≠ "" && !acc.contains t then acc ++ [t] else acc
             | none => acc)
           []
         .ok (sortAscK (fun s => s) themes))
    (fun _ => .ok [])

/-- `f"Panel {panel_code}"` plus the truncated title suffix (lines 335-337). -/
def panelDisplay (pc : PyScalar) (title : String) : String :=
  let base := "Panel " ++ scalarStr pc
  if title = "" then base
  else if title.data.length > 50 then base ++ " - " ++ (⟨title.data.take 50⟩ : String) ++ "..."
  else base ++ " - " ++ title

/-- The `(str(panel_code), display)` pairs accumulated by `get_all_panels`
before sorting (lines 329-338). -/
def buildPanels (objs : List PanelProps) : List (String × String) :=
  objs.foldl
    (fun acc o =>
      match o.panel_code with
      | some pc =>
        if scalarTruthy pc
        then acc ++ [(scalarStr pc, panelDisplay pc (o.title.getD ""))]
        else acc
      | none => acc)
    []

/-- `lambda x: int(x[0]) if x[0].isdigit() else 999999` (line 341). -/
def panelSortKey (code : String) : Int :=
  if pyIsDigit code.data then (digitsToNat code.data : Int) else 999999

/-- `get_all_panels` (lines 322-346). -/
def get_all_panels (client : WClient) : Except PyErr (List (String × String)) :=
  pyCatch
    (match client.getPanels with
     | .error e => .error e
     | .ok coll =>
       match coll.fetchAll with
       | .error e => .error e
       | .ok objs => .ok (sortAscK (fun p => panelSortKey p.1) (buildPanels objs)))
    (fun _ => .ok [])

/-- The ordering C10 claims: once a non-digit code appears, no digit code may
follow. -/
def numericSegregated : List (String × String) → Bool
  | [] => true
  | p :: rest =>
    (pyIsDigit p.1.data || rest.all (fun q => !pyIsDigit q.1.data)) && numericSegregated rest

/-! ## Search execution segment (`main`, lines 830-1069)

What C6 needs of the control flow: the reranker load (`CrossEncoder(...)`),
the rerank, and the truncation all run inside the one big `try`; the outer
`except` displays an error and produces no results.  The reranker load is
abstracted as an `Except`: `.error` models a raised load failure. -/

inductive SearchOutcome where
  | results (groups : List (String × List (Nat × RObj)))
  | errorShown (e : PyErr)
  | noResults
deriving DecidableEq

/-- Body of the `try` block, from the point where the candidate objects are
in hand: optional rerank (loading the model first), then `objects[:top_k]`. -/
def searchBody (use_reranker : Bool) (load : Except PyErr (String × String → Int))
    (question : String) (objects : List RObj) (top_k : Nat) :
    Except PyErr (List RObj) :=
  if use_reranker && !objects.isEmpty then
    match load with
    | .ok predict => .ok ((rerankStep predict question objects).take top_k)
    | .error e => .error e
  else .ok (objects.take top_k)

/-- The search segment with its outer `except` (lines 1066-1069): a raise
anywhere in the body surfaces as an error display with no results; an empty
final list shows "No results found."; otherwise the assembler output is
rendered. -/
def searchPipeline (use_reranker : Bool) (load : Except PyErr (String × String → Int))
    (question : String) (objects : List RObj) (top_k : Nat) : SearchOutcome :=
  match searchBody use_reranker load question objects top_k with
  | .error e => .errorShown e
  | .ok [] => .noResults
  | .ok objs => .results (assemble objs)

/-! ## Concrete sample data for witnesses and counterexamples -/

/-- A sample retrieval object on panel 7. -/
def sampleObj : RObj :=
  { properties :=
      { text := some "science policy"
        file_name := some "panel7_transcript.txt"
        chunk_start_time := some "01:02:03"
        chunk_id := some "c1"
        chunk_speakers := some "A. Speaker"
        panel_theme := ["Science and Society"]
        panel_code := some "7"
        doc_id := some "d1" }
    rerank_score := none }

/-- A second sample object, on panel 8. -/
def sampleObj2 : RObj :=
  { properties :=
      { text := some "research security"
        file_name := some "panel8_transcript.txt"
        chunk_start_time := some "12:34"
        chunk_id := some "c2"
        chunk_speakers := none
        panel_theme := ["Security"]
        panel_code := some "8"
        doc_id := some "d2" }
    rerank_score := none }

/-- A third sample object, again on panel 7. -/
def sampleObj3 : RObj :=
  { properties :=
      { text := some "open science"
        file_name := some "panel7_transcript.txt"
        chunk_start_time := some "45"
        chunk_id := some "c3"
        chunk_speakers := none
        panel_theme := ["Science and Society"]
        panel_code := some "7"
        doc_id := some "d1" }
    rerank_score := none }

/-- A CSPC_Panels record whose `panel_code` is stored as the integer 333. -/
def rec333 : PanelProps :=
  { panel_code := some (.int 333)
    title := some "AI and Discovery"
    theme := some "Science and Society"
    photo_url := some (.list ["http://x/p.jpg"])
    speaker_photo_url := none
    organized_by := some "CSPC"
    panel_organized_by := none
    speakers := some ["A", "B"]
    panel_date := some "2023-11-13"
    abstract := none
    panel_url := none
    external_details_url := none }

/-- A store in which the string-typed equality filter raises (type mismatch
against integer-stored codes) and the integer-typed filter finds `rec333`. -/
def coll333 : PanelsColl :=
  { fetchEqStr := fun _ => .error .typeMismatch
    fetchEqInt := fun n => if n = 333 then .ok [rec333] else .ok []
    fetchAll := .ok [rec333] }

def client333 : WClient := { getPanels := .ok coll333 }

/-- A client whose collection handle itself raises. -/
def deadClient : WClient := { getPanels := .error .connFail }

/-- A record with a non-digit string panel code and no title. -/
def recAbc : PanelProps :=
  { panel_code := some (.str "abc")
    title := none
    theme := none
    photo_url := none
    speaker_photo_url := none
    organized_by := none
    panel_organized_by := none
    speakers := none
    panel_date := none
    abstract := none
    panel_url := none
    external_details_url := none }

/-- A record whose integer panel code exceeds the 999999 sentinel. -/
def recBig : PanelProps :=
  { panel_code := some (.int 1000000)
    title := none
    theme := none
    photo_url := none
    speaker_photo_url := none
    organized_by := none
    panel_organized_by := none
    speakers := none
    panel_date := none
    abstract := none
    panel_url := none
    external_details_url := none }

/-- A store holding `recAbc` then `recBig`. -/
def collBig : PanelsColl :=
  { fetchEqStr := fun _ => .ok []
    fetchEqInt := fun _ => .ok []
    fetchAll := .ok [recAbc, recBig] }

def clientBig : WClient := { getPanels := .ok collBig }

/-- A constant cross-encoder assigning score 5 to every pair. -/
def constPredict : String × String → Int := fun _ => 5

/-! ## Lemmas on the stable sorts -/

theorem insertAscK_perm {α κ : Type} [LinearOrder κ] (k : α → κ) (x : α) (l : List α) :
    (insertAscK k x l).Perm (x :: l) := by
  induction l with
  | nil => exact List.Perm.refl _
  | cons y ys ih =>
    unfold insertAscK
    by_cases h : k y < k x
    · simpa [h] using (ih.cons y).trans (List.Perm.swap x y ys)
    · simp [h]

theorem sortAscK_perm {α κ : Type} [LinearOrder κ] (k : α → κ) (l : List α) :
    (sortAscK k l).Perm l := by
  induction l with
  | nil => exact List.Perm.refl _
  | cons y ys ih => exact (insertAscK_perm k y (sortAscK k ys)).trans (ih.cons y)

theorem insertDescK_perm {α κ : Type} [LinearOrder κ] (k : α → κ) (x : α) (l : List α) :
    (insertDescK k x l).Perm (x :: l) := by
  induction l with
  | nil => exact List.Perm.refl _
  | cons y ys ih =>
    unfold insertDescK
    by_cases h : k x < k y
    · simpa [h] using (ih.cons y).trans (List.Perm.swap x y ys)
    · simp [h]

theorem sortDescK_perm {α κ : Type} [LinearOrder κ] (k : α → κ) (l : List α) :
    (sortDescK k l).Perm l := by
  induction l with
  | nil => exact List.Perm.refl _
  | cons y ys ih => exact (insertDescK_perm k y (sortDescK k ys)).trans (ih.cons y)

theorem insertAscK_pairwise {α κ : Type} [LinearOrder κ] (k : α → κ) (x : α) {l : List α}
    (h : l.Pairwise (fun a b => k a ≤ k b)) :
    (insertAscK k x l).Pairwise (fun a b => k a ≤ k b) := by
  induction l with
  | nil => simp [insertAscK]
  | cons y ys ih =>
    rw [List.pairwise_cons] at h
    unfold insertAscK
    by_cases hyx : k y < k x
    · simp only [hyx, if_true]
      rw [List.pairwise_cons]
      refine ⟨?_, ih h.2⟩
      intro z hz
      rcases List.mem_cons.mp (((insertAscK_perm k x ys).mem_iff).mp hz) with hz' | hz'
      · subst hz'
        exact le_of_lt hyx
      · exact h.1 z hz'
    · simp only [hyx, if_false]
      rw [List.pairwise_cons]
      refine ⟨?_, List.pairwise_cons.mpr h⟩
      intro z hz
      rcases List.mem_cons.mp hz with hz' | hz'
      · subst hz'
        exact le_of_not_lt hyx
      · exact le_trans (le_of_not_lt hyx) (h.1 z hz')

theorem sortAscK_pairwise {α κ : Type} [LinearOrder κ] (k : α → κ) (l : List α) :
    (sortAscK k l).Pairwise (fun a b => k a ≤ k b) := by
  induction l with
  | nil => simp [sortAscK]
  | cons y ys ih => exact insertAscK_pairwise k y ih

theorem insertDescK_pairwise {α κ : Type} [LinearOrder κ] (k : α → κ) (x : α) {l : List α}
    (h : l.Pairwise (fun a b => k b ≤ k a)) :
    (insertDescK k x l).Pairwise (fun a b => k b ≤ k a) := by
  induction l with
  | nil => simp [insertDescK]
  | cons y ys ih =>
    rw [List.pairwise_cons] at h
    unfold insertDescK
    by_cases hxy : k x < k y
    · simp only [hxy, if_true]
      rw [List.pairwise_cons]
      refine ⟨?_, ih h.2⟩
      intro z hz
      rcases List.mem_cons.mp (((insertDescK_perm k x ys).mem_iff).mp hz) with hz' | hz'
      · subst hz'
        exact le_of_lt hxy
      · exact h.1 z hz'
    · simp only [hxy, if_false]
      rw [List.pairwise_cons]
      refine ⟨?_, List.pairwise_cons.mpr h⟩
      intro z hz
      rcases List.mem_cons.mp hz with hz' | hz'
      · subst hz'
        exact le_of_not_lt hxy
      · exact le_trans (h.1 z hz') (le_of_not_lt hxy)

theorem sortDescK_pairwise {α κ : Type} [LinearOrder κ] (k : α → κ) (l : List α) :
    (sortDescK k l).Pairwise (fun a b => k b ≤ k a) := by
  induction l with
  | nil => simp [sortDescK]
  | cons y ys ih => exact insertDescK_pairwise k y ih

theorem insertAscK_filter {α κ : Type} [LinearOrder κ] (k : α → κ) (x : α) (l : List α)
    (c : κ) :
    (insertAscK k x l).filter (fun a => decide (k a = c))
      = if k x = c then x :: l.filter (fun a => decide (k a = c))
        else l.filter (fun a => decide (k a = c)) := by
  induction l with
  | nil => by_cases h : k x = c <;> simp [insertAscK, h]
  | cons y ys ih =>
    unfold insertAscK
    by_cases hyx : k y < k x
    · rw [if_pos hyx]
      by_cases hxc : k x = c
      · have hyc : ¬ (k y = c) := by
          intro he
          rw [hxc] at hyx
          rw [he] at hyx
          exact lt_irrefl _ hyx
        rw [if_pos hxc]
        simp [List.filter_cons, hyc, ih, hxc]
      · rw [if_neg hxc]
        by_cases hyc : k y = c <;> simp [List.filter_cons, hyc, ih, hxc]
    · rw [if_neg hyx]
      by_cases hxc : k x = c
      · rw [if_pos hxc]
        by_cases hyc : k y = c <;> simp [List.filter_cons, hyc, hxc]
      · rw [if_neg hxc]
        by_cases hyc : k y = c <;> simp [List.filter_cons, hyc, hxc]

theorem sortAscK_filter {α κ : Type} [LinearOrder κ] (k : α → κ) (l : List α) (c : κ) :
    (sortAscK k l).filter (fun a => decide (k a = c))
      = l.filter (fun a => decide (k a = c)) := by
  induction l with
  | nil => rfl
  | cons y ys ih =>
    show (insertAscK k y (sortAscK k ys)).filter _ = _
    rw [insertAscK_filter]
    by_cases hyc : k y = c <;> simp [hyc, List.filter_cons, ih]

theorem insertDescK_filter {α κ : Type} [LinearOrder κ] (k : α → κ) (x : α) (l : List α)
    (c : κ) :
    (insertDescK k x l).filter (fun a => decide (k a = c))
      = if k x = c then x :: l.filter (fun a => decide (k a = c))
        else l.filter (fun a => decide (k a = c)) := by
  induction l with
  | nil => by_cases h : k x = c <;> simp [insertDescK, h]
  | cons y ys ih =>
    unfold insertDescK
    by_cases hxy : k x < k y
    · rw [if_pos hxy]
      by_cases hxc : k x = c
      · have hyc : ¬ (k y = c) := by
          intro he
          rw [hxc] at hxy
          rw [he] at hxy
          exact lt_irrefl _ hxy
        rw [if_pos hxc]
        simp [List.filter_cons, hyc, ih, hxc]
      · rw [if_neg hxc]
        by_cases hyc : k y = c <;> simp [List.filter_cons, hyc, ih, hxc]
    · rw [if_neg hxy]
      by_cases hxc : k x = c
      · rw [if_pos hxc]
        by_cases hyc : k y = c <;> simp [List.filter_cons, hyc, hxc]
      · rw [if_neg hxc]
        by_cases hyc : k y = c <;> simp [List.filter_cons, hyc, hxc]

theorem sortDescK_filter {α κ : Type} [LinearOrder κ] (k : α → κ) (l : List α) (c : κ) :
    (sortDescK k l).filter (fun a => decide (k a = c))
      = l.filter (fun a => decide (k a = c)) := by
  induction l with
  | nil => rfl
  | cons y ys ih =>
    show (insertDescK k y (sortDescK k ys)).filter _ = _
    rw [insertDescK_filter]
    by_cases hyc : k y = c <;> simp [hyc, List.filter_cons, ih]

/-! ## Lemmas on `time_to_seconds` -/

theorem time_to_seconds_wrong_shape (s : String)
    (h2 : (pySplitChar ':' s.data).length ≠ 2)
    (h3 : (pySplitChar ':' s.data).length ≠ 3) :
    time_to_seconds s = 0 := by
  unfold time_to_seconds
  split
  · rfl
  · rcases hl : pySplitChar ':' s.data with - | ⟨a, - | ⟨b, - | ⟨c, - | ⟨d, rest⟩⟩⟩⟩
    · simp [hl]
    · simp [hl]
    · exact absurd (by rw [hl]; rfl) h2
    · exact absurd (by rw [hl]; rfl) h3
    · simp [hl]

theorem time_to_seconds_bad_segment (s : String)
    (hex : ∃ p ∈ pySplitChar ':' s.data, pyIntL p = none) :
    time_to_seconds s = 0 := by
  unfold time_to_seconds
  split
  · rfl
  · rcases hl : pySplitChar ':' s.data with - | ⟨a, - | ⟨b, - | ⟨c, - | ⟨d, rest⟩⟩⟩⟩
    · simp [hl]
    · simp [hl]
    · rw [hl] at hex
      rcases hex with ⟨p, hp, hnone⟩
      rcases List.mem_cons.mp hp with rfl | hp'
      · simp [hl, hnone]
      · rcases List.mem_cons.mp hp' with rfl | hp2
        · simp [hl, hnone]
        · cases hp2
    · rw [hl] at hex
      rcases hex with ⟨p, hp, hnone⟩
      rcases List.mem_cons.mp hp with rfl | hp'
      · simp [hl, hnone]
      · rcases List.mem_cons.mp hp' with rfl | hp''
        · simp [hl, hnone]
        · rcases List.mem_cons.mp hp'' with rfl | hp3
          · simp [hl, hnone]
          · cases hp3
    · simp [hl]

/-! ## Lemmas on the AudioLocator chains -/

theorem stripMainL_eq_specChain (l : List Char) : stripMainL l = specChainStripL l := by
  unfold stripMainL specChainStripL removeSuffixL
  by_cases h1 : endsWithL l ("_transcript.txt".data) = true
  · simp [h1]
  · by_cases h2 : endsWithL l (".txt".data) = true <;> simp [h1, h2]

theorem findBaseL_agrees (l : List Char)
    (h : ¬(endsWithL l ("_transcript.txt".data) = true ∧
           endsWithL (dropLastL l ("_transcript.txt".data.length)) (".txt".data) = true)) :
    findBaseL l = stripMainL l := by
  unfold findBaseL stripMainL
  simp only [List.foldl]
  by_cases h1 : endsWithL l ("_transcript.txt".data) = true
  · have h2 : ¬ endsWithL (dropLastL l ("_transcript.txt".data.length)) (".txt".data) = true :=
      fun hh => h ⟨h1, hh⟩
    rw [show removeSuffixL l ("_transcript.txt".data)
          = dropLastL l ("_transcript.txt".data.length) from by
        unfold removeSuffixL
        rw [if_pos h1]]
    rw [show removeSuffixL (dropLastL l ("_transcript.txt".data.length)) (".txt".data)
          = dropLastL l ("_transcript.txt".data.length) from by
        unfold removeSuffixL
        rw [if_neg h2]]
    rw [if_pos h1]
    unfold removeSuffixL
    by_cases h3 : endsWithL (dropLastL l ("_transcript.txt".data.length)) ("_transcript".data) = true
    · rw [if_pos h3]
    · rw [if_neg h3]
  · rw [show removeSuffixL l ("_transcript.txt".data) = l from by
        unfold removeSuffixL
        rw [if_neg h1]]
    rw [if_neg h1]
    by_cases h2 : endsWithL l (".txt".data) = true
    · rw [show removeSuffixL l (".txt".data) = dropLastL l (".txt".data.length) from by
          unfold removeSuffixL
          rw [if_pos h2]]
      rw [if_pos h2]
      unfold removeSuffixL
      by_cases h3 : endsWithL (dropLastL l (".txt".data.length)) ("_transcript".data) = true
      · rw [if_pos h3]
      · rw [if_neg h3]
    · rw [show removeSuffixL l (".txt".data) = l from by
          unfold removeSuffixL
          rw [if_neg h2]]
      rw [if_neg h2]
      unfold removeSuffixL
      by_cases h3 : endsWithL l ("_transcript".data) = true
      · rw [if_pos h3]
      · rw [if_neg h3]

/-! ## Claim C1 -/

/-- C1 counterexample.  The claim asserts that the bare-integer string
`"45"` parses to `45` and that every result is non-negative; on the code a
single-segment input falls into the catch-all branch and yields `0`, and a
signed segment such as `"-1:30"` yields the negative value `-30`. -/
theorem C1_counterexample :
    time_to_seconds "45" = 0 ∧ time_to_seconds "-1:30" = -30 ∧
    time_to_seconds "-1:30" < 0 :=
  ⟨by decide, by decide, by decide⟩

/-- C1 (amended): `TimeCode.parse` (`time_to_seconds`) is total (the model is
a total function; the `try`/`except` of the source absorbs every conversion
error) and soft-failing: the empty string and the em-dash placeholder yield
`0`; `"01:02:03"` maps to `3723`, `"12:34"` to `754`, `"N/A"` to `0`; a
bare-integer string such as `"45"` is **not** recognized and yields `0` (only
`HH:MM:SS` and `MM:SS` shapes are converted); any split shape other than two
or three segments yields `0`; any malformed segment yields `0`.  The result
is an integer but not necessarily non-negative: segments carrying a sign are
accepted by `int` and can make the total negative. -/
theorem C1_time_to_seconds_amended :
    time_to_seconds "" = 0 ∧ time_to_seconds "—" = 0 ∧
    time_to_seconds "01:02:03" = 3723 ∧ time_to_seconds "12:34" = 754 ∧
    time_to_seconds "N/A" = 0 ∧ time_to_seconds "45" = 0 ∧
    (∀ s : String, (pySplitChar ':' s.data).length ≠ 2 →
      (pySplitChar ':' s.data).length ≠ 3 → time_to_seconds s = 0) ∧
    (∀ s : String, (∃ p ∈ pySplitChar ':' s.data, pyIntL p = none) →
      time_to_seconds s = 0) :=
  ⟨by decide, by decide, by decide, by decide, by decide, by decide,
   time_to_seconds_wrong_shape, time_to_seconds_bad_segment⟩

/-- C1 witness: the amended theorem applied at the concrete malformed input
`"ab:cd"`. -/
theorem C1_witness : time_to_seconds "ab:cd" = 0 :=
  C1_time_to_seconds_amended.2.2.2.2.2.2.2 "ab:cd" ⟨['a', 'b'], by decide, by decide⟩

/-! ## Claim C2 -/

/-- C2 counterexample.  The claim asserts that `find_audio_file` and the S3
derivation in `main` implement the same first-match-wins chain and never
double-strip.  On `"a.txt_transcript.txt"` the loop in `find_audio_file`
strips `"_transcript.txt"` **and then** also `".txt"` from the remainder,
producing base `"a"`, while `main`'s `if`/`elif` chain produces `"a.txt"`
(audio name `"a.txt.mp3"`): the two implementations differ and the loop
double-strips. -/
theorem C2_counterexample :
    findBase "a.txt_transcript.txt" = "a" ∧
    mainAudioName "a.txt_transcript.txt" = "a.txt.mp3" ∧
    findBase "a.txt_transcript.txt"
      ≠ (⟨stripMainL "a.txt_transcript.txt".data⟩ : String) :=
  ⟨by decide, by decide, by decide⟩

/-- C2 (amended): the S3-URL derivation in `main` implements exactly the
spec's ordered first-match-wins chain (strip a trailing `"_transcript.txt"`,
else a trailing `".txt"`, then after either a trailing `"_transcript"`, and
append `".mp3"`), and the spec's examples hold for it;
`find_audio_file` applies the three strips sequentially and agrees with that
chain for every name **except** those ending in `"_transcript.txt"` whose
remainder still ends in `".txt"`, where it double-strips. -/
theorem C2_suffix_chain_amended :
    (∀ name : String, stripMainL name.data = specChainStripL name.data) ∧
    (∀ name : String,
      ¬(endsWithL name.data ("_transcript.txt".data) = true ∧
        endsWithL (dropLastL name.data ("_transcript.txt".data.length)) (".txt".data) = true) →
      findBase name = (⟨stripMainL name.data⟩ : String)) ∧
    mainAudioName "panel12_transcript.txt" = "panel12.mp3" ∧
    mainAudioName "panel12.txt" = "panel12.mp3" ∧
    mainAudioName "panel12_transcript" = "panel12.mp3" ∧
    mainAudioName "panel12.mp3-ready_transcript.txt" = "panel12.mp3-ready.mp3" ∧
    findBase "panel12_transcript.txt" = "panel12" ∧
    findBase "panel12.txt" = "panel12" ∧
    findBase "panel12_transcript" = "panel12" :=
  ⟨fun name => stripMainL_eq_specChain name.data,
   fun name hno => congrArg String.mk (findBaseL_agrees name.data hno),
   by decide, by decide, by decide, by decide, by decide, by decide, by decide⟩

/-- C2 witness: the agreement part of the amended theorem applied at the
concrete name `"panel12.txt"`. -/
theorem C2_witness :
    findBase "panel12.txt" = (⟨stripMainL "panel12.txt".data⟩ : String) :=
  C2_suffix_chain_amended.2.1 "panel12.txt" (by decide)

/-! ## Lemmas on the rerank step -/

theorem scored_zip (predict : String × String → Int) (q : String) (objects : List RObj) :
    List.zipWith (fun o s => { o with rerank_score := some s }) objects
        ((objects.map (fun o => (q, o.properties.text.getD ""))).map predict)
      = scoredOf predict q objects := by
  induction objects with
  | nil => rfl
  | cons o os ih =>
    simp only [List.map_cons, List.zipWith_cons_cons, scoredOf] at ih ⊢
    rw [ih]

theorem rerankStep_eq (predict : String × String → Int) (q : String) (objects : List RObj) :
    rerankStep predict q objects
      = sortDescK (fun o => o.rerank_score.getD 0) (scoredOf predict q objects) := by
  unfold rerankStep
  dsimp only
  rw [scored_zip]

/-! ## Claim C5 -/

/-- C5: reranking is a pure reordering.  For every question and non-empty
candidate list, the rerank step produces a list of the same length, which is
a permutation of the score-attached candidates, sorted by descending
cross-encoder score; ties keep the original retrieval order (expressed by
the per-score filter characterization, which together with sortedness
determines the output uniquely); and every output candidate carries its own
computed score. -/
theorem C5_rerank_permutation (predict : String × String → Int) (q : String)
    (objects : List RObj) (hne : objects ≠ []) :
    (rerankStep predict q objects).length = objects.length ∧
    (rerankStep predict q objects).Perm (scoredOf predict q objects) ∧
    (rerankStep predict q objects).Pairwise
      (fun a b => b.rerank_score.getD 0 ≤ a.rerank_score.getD 0) ∧
    (∀ c : Int,
      (rerankStep predict q objects).filter (fun o => decide (o.rerank_score.getD 0 = c))
        = (scoredOf predict q objects).filter (fun o => decide (o.rerank_score.getD 0 = c))) ∧
    (∀ o ∈ rerankStep predict q objects,
      o.rerank_score = some (predict (q, o.properties.text.getD ""))) := by
  have hperm : (rerankStep predict q objects).Perm (scoredOf predict q objects) := by
    rw [rerankStep_eq]
    exact sortDescK_perm _ _
  refine ⟨?_, hperm, ?_, ?_, ?_⟩
  · rw [hperm.length_eq]
    simp [scoredOf]
  · rw [rerankStep_eq]
    exact sortDescK_pairwise _ _
  · intro c
    rw [rerankStep_eq]
    exact sortDescK_filter _ _ c
  · intro o ho
    have : o ∈ scoredOf predict q objects := hperm.mem_iff.mp ho
    rcases List.mem_map.mp this with ⟨orig, _, rfl⟩
    rfl

/-- C5 witness: the permutation part at a concrete two-candidate list. -/
theorem C5_witness :
    (rerankStep constPredict "q" [sampleObj, sampleObj2]).Perm
      (scoredOf constPredict "q" [sampleObj, sampleObj2]) :=
  (C5_rerank_permutation constPredict "q" [sampleObj, sampleObj2] (by decide)).2.1

/-! ## Claim C6 -/

/-- C6 counterexample.  The claim asserts that a reranker load failure
downgrades the request to the unreranked pipeline and only warns.  In the
source the `CrossEncoder(...)` call sits inside the one big `try`, so a load
failure propagates to the outer `except` (lines 1066-1069), which displays an
error and renders nothing: with identical inputs, the failing-load run shows
an error while the `use_reranker=False` run shows results, and the two
differ. -/
theorem C6_counterexample :
    searchPipeline true (.error .loadFail) "q" [sampleObj] 10 = .errorShown .loadFail ∧
    searchPipeline false (.error .loadFail) "q" [sampleObj] 10
      = .results [("7", [(1, sampleObj)])] ∧
    searchPipeline true (.error .loadFail) "q" [sampleObj] 10
      ≠ searchPipeline false (.error .loadFail) "q" [sampleObj] 10 :=
  ⟨by decide, by decide, by decide⟩

/-- C6 (amended): a reranker model-load failure raises inside the search
`try` block and is caught only by the top-level handler: with reranking
enabled and a non-empty candidate set, the search surfaces an error display
and produces no results — it does not degrade to the `use_reranker=false`
behavior. -/
theorem C6_rerank_load_failure_amended (e : PyErr) (q : String) (objects : List RObj)
    (k : Nat) (hne : objects ≠ []) :
    searchPipeline true (.error e) q objects k = .errorShown e := by
  cases objects with
  | nil => exact absurd rfl hne
  | cons a l => rfl

/-- C6 witness: the amended theorem at a concrete failing load. -/
theorem C6_witness :
    searchPipeline true (.error .connFail) "q" [sampleObj2] 5 = .errorShown .connFail :=
  C6_rerank_load_failure_amended .connFail "q" [sampleObj2] 5 (by decide)

/-! ## Claim C7 -/

/-- C7 counterexample.  The claim asserts that no field of any candidate is
mutated by the rerank step, the score being carried in a separate pairing.
In the source the step executes `obj._rerank_score = float(s)` on each
candidate: the candidate object itself changes (its rerank-score attribute
goes from absent to set), so the reranked list is not the original
object list. -/
theorem C7_counterexample :
    rerankStep constPredict "q" [sampleObj] = [{ sampleObj with rerank_score := some 5 }] ∧
    sampleObj.rerank_score = none ∧
    rerankStep constPredict "q" [sampleObj] ≠ [sampleObj] :=
  ⟨by decide, by decide, by decide⟩

/-- C7 (amended): the rerank step writes the computed score into each
candidate's rerank-score attribute (in-place assignment in the source) and
sorts the candidate list itself; every output object is one of the input
objects with its `rerank_score` field set to its own computed score and all
other fields unchanged. -/
theorem C7_rerank_mutation_amended (predict : String × String → Int) (q : String)
    (objects : List RObj) :
    (rerankStep predict q objects).Perm (scoredOf predict q objects) ∧
    (∀ o ∈ rerankStep predict q objects, ∃ orig ∈ objects,
      o.properties = orig.properties ∧
      o.rerank_score = some (predict (q, orig.properties.text.getD ""))) := by
  have hperm : (rerankStep predict q objects).Perm (scoredOf predict q objects) := by
    rw [rerankStep_eq]
    exact sortDescK_perm _ _
  refine ⟨hperm, ?_⟩
  intro o ho
  have : o ∈ scoredOf predict q objects := hperm.mem_iff.mp ho
  rcases List.mem_map.mp this with ⟨orig, horig, rfl⟩
  exact ⟨orig, horig, rfl, rfl⟩

/-- C7 witness: the amended theorem at a concrete single-candidate list. -/
theorem C7_witness :
    ∃ orig ∈ [sampleObj],
      ({ sampleObj with rerank_score := some 5 } : RObj).properties = orig.properties ∧
      ({ sampleObj with rerank_score := some 5 } : RObj).rerank_score
        = some (constPredict ("q", orig.properties.text.getD "")) :=
  (C7_rerank_mutation_amended constPredict "q" [sampleObj]).2 _ (by decide)

/-! ## Lemmas on the assembler -/

theorem addItem_flatMap (key : String) (it : Nat × RObj)
    (gs : List (String × List (Nat × RObj))) :
    ((addItem key it gs).flatMap (fun g => g.2)).Perm
      ((gs.flatMap (fun g => g.2)) ++ [it]) := by
  induction gs with
  | nil => simp [addItem]
  | cons g rest ih =>
    rcases g with ⟨k, its⟩
    unfold addItem
    by_cases h : k = key
    · rw [if_pos h]
      simp only [List.flatMap_cons]
      rw [List.append_assoc, List.append_assoc]
      exact List.Perm.append_left its List.perm_append_comm
    · rw [if_neg h]
      simp only [List.flatMap_cons]
      rw [List.append_assoc]
      exact List.Perm.append_left its ih

theorem groupFold_flatMap (items : List (Nat × RObj)) :
    ∀ gs : List (String × List (Nat × RObj)),
      (((items.foldl (fun gs it => addItem (keyOf it.2) it gs) gs)).flatMap
          (fun g => g.2)).Perm ((gs.flatMap (fun g => g.2)) ++ items) := by
  induction items with
  | nil => intro gs; simp
  | cons it rest ih =>
    intro gs
    rw [List.foldl_cons]
    refine (ih (addItem (keyOf it.2) it gs)).trans ?_
    refine (List.Perm.append_right rest (addItem_flatMap (keyOf it.2) it gs)).trans ?_
    rw [List.append_assoc]
    rfl

theorem addItem_goodkeys (key : String) (it : Nat × RObj)
    (gs : List (String × List (Nat × RObj)))
    (hgs : ∀ g ∈ gs, ∀ x ∈ g.2, keyOf x.2 = g.1) (hit : keyOf it.2 = key) :
    ∀ g ∈ addItem key it gs, ∀ x ∈ g.2, keyOf x.2 = g.1 := by
  induction gs with
  | nil =>
    intro g hg x hx
    rcases List.mem_singleton.mp hg with rfl
    rcases List.mem_singleton.mp hx with rfl
    exact hit
  | cons g0 rest ih =>
    rcases g0 with ⟨k, its⟩
    unfold addItem
    by_cases h : k = key
    · rw [if_pos h]
      intro g hg x hx
      rcases List.mem_cons.mp hg with rfl | hg'
      · rcases List.mem_append.mp hx with hx' | hx'
        · exact hgs (k, its) (List.mem_cons_self _ _) x hx'
        · rcases List.mem_singleton.mp hx' with rfl
          rw [hit, h]
      · exact hgs g (List.mem_cons_of_mem _ hg') x hx
    · rw [if_neg h]
      intro g hg x hx
      rcases List.mem_cons.mp hg with rfl | hg'
      · exact hgs (k, its) (List.mem_cons_self _ _) x hx
      · exact ih (fun g' hg2 => hgs g' (List.mem_cons_of_mem _ hg2)) g hg' x hx

theorem groupFold_goodkeys (items : List (Nat × RObj)) :
    ∀ gs : List (String × List (Nat × RObj)),
      (∀ g ∈ gs, ∀ x ∈ g.2, keyOf x.2 = g.1) →
      ∀ g ∈ items.foldl (fun gs it => addItem (keyOf it.2) it gs) gs,
        ∀ x ∈ g.2, keyOf x.2 = g.1 := by
  induction items with
  | nil => intro gs hgs; exact hgs
  | cons it rest ih =>
    intro gs hgs
    rw [List.foldl_cons]
    exact ih _ (addItem_goodkeys (keyOf it.2) it gs hgs rfl)

theorem addItem_sublist (key : String) (it : Nat × RObj)
    (gs : List (String × List (Nat × RObj))) (done : List (Nat × RObj))
    (hgs : ∀ g ∈ gs, g.2.Sublist done) :
    ∀ g ∈ addItem key it gs, g.2.Sublist (done ++ [it]) := by
  induction gs with
  | nil =>
    intro g hg
    rcases List.mem_singleton.mp hg with rfl
    exact List.sublist_append_right done [it]
  | cons g0 rest ih =>
    rcases g0 with ⟨k, its⟩
    unfold addItem
    by_cases h : k = key
    · rw [if_pos h]
      intro g hg
      rcases List.mem_cons.mp hg with rfl | hg'
      · exact List.Sublist.append (hgs (k, its) (List.mem_cons_self _ _)) (List.Sublist.refl _)
      · exact (hgs g (List.mem_cons_of_mem _ hg')).trans (List.sublist_append_left done [it])
    · rw [if_neg h]
      intro g hg
      rcases List.mem_cons.mp hg with rfl | hg'
      · exact (hgs (k, its) (List.mem_cons_self _ _)).trans (List.sublist_append_left done [it])
      · exact ih (fun g' hg2 => hgs g' (List.mem_cons_of_mem _ hg2)) g hg'

theorem groupFold_sublist_aux (items : List (Nat × RObj)) :
    ∀ (gs : List (String × List (Nat × RObj))) (done : List (Nat × RObj)),
      (∀ g ∈ gs, g.2.Sublist done) →
      ∀ g ∈ items.foldl (fun gs it => addItem (keyOf it.2) it gs) gs,
        g.2.Sublist (done ++ items) := by
  induction items with
  | nil => intro gs done hgs g hg; simpa using hgs g hg
  | cons it rest ih =>
    intro gs done hgs g hg
    rw [List.foldl_cons] at hg
    have := ih (addItem (keyOf it.2) it gs) (done ++ [it])
      (addItem_sublist (keyOf it.2) it gs done hgs) g hg
    rwa [List.append_assoc, List.singleton_append] at this

theorem groupFold_sublist (items : List (Nat × RObj)) :
    ∀ g ∈ groupFold items, g.2.Sublist items := by
  intro g hg
  have := groupFold_sublist_aux items [] [] (by intro g hg; cases hg) g hg
  simpa using this

theorem minOp_swap (i : Option Nat) (x y : Nat × RObj) :
    minOp (minOp i x) y = minOp (minOp i y) x := by
  cases i with
  | none => simp [minOp, Nat.min_comm]
  | some v =>
    simp only [minOp, Option.some.injEq, Nat.min_def]
    split_ifs <;> omega

theorem minRankOpt_perm {l₁ l₂ : List (Nat × RObj)} (h : l₁.Perm l₂) :
    minRankOpt l₁ = minRankOpt l₂ := by
  have main : ∀ i : Option Nat, l₁.foldl minOp i = l₂.foldl minOp i := by
    induction h with
    | nil => intro i; rfl
    | cons x _ ih => intro i; rw [List.foldl_cons, List.foldl_cons, ih]
    | swap x y l =>
      intro i
      rw [List.foldl_cons, List.foldl_cons, List.foldl_cons, List.foldl_cons, minOp_swap]
    | trans _ _ ih₁ ih₂ => intro i; rw [ih₁, ih₂]
  exact main none

theorem flatMap_inner_sort (gs : List (String × List (Nat × RObj))) :
    ((gs.map (fun g => (g.1, sortAscK (fun it => it.1) g.2))).flatMap
        (fun g => g.2)).Perm (gs.flatMap (fun g => g.2)) := by
  induction gs with
  | nil => simp
  | cons g rest ih =>
    simp only [List.map_cons, List.flatMap_cons]
    exact List.Perm.append (sortAscK_perm _ _) ih

theorem rankedOf_fst (objects : List RObj) :
    (rankedOf objects).map Prod.fst = List.range' 1 objects.length := by
  unfold rankedOf
  exact List.map_fst_zip _ _ (by rw [List.length_range'])

theorem rankedOf_snd (objects : List RObj) :
    (rankedOf objects).map Prod.snd = objects := by
  unfold rankedOf
  exact List.map_snd_zip _ _ (by rw [List.length_range'])

theorem rankedOf_pairwise (objects : List RObj) :
    (rankedOf objects).Pairwise (fun a b => a.1 < b.1) := by
  have h : ((rankedOf objects).map Prod.fst).Pairwise (· < ·) := by
    rw [rankedOf_fst]
    exact List.pairwise_lt_range' ..
  exact (List.pairwise_map).mp h

theorem assemble_flatMap_perm (objects : List RObj) :
    ((assemble objects).flatMap (fun g => g.2)).Perm (rankedOf objects) := by
  unfold assemble
  dsimp only
  refine (flatMap_inner_sort _).trans ?_
  refine ((sortAscK_perm _ _).flatMap_right _).trans ?_
  simpa using groupFold_flatMap (rankedOf objects) []

/-! ## Claim C8 -/

/-- C8: ResultAssembler ordering.  For every final chunk list: the ranks
appearing in the assembled groups are exactly the dense 1-based range
`1..n`; the chunks are exactly the input chunks; every item sits in the
group labelled with its panel key (`panel_code`, else the first digit run of
`file_name`, else `"Unknown"`); groups are ordered by ascending minimum
contained rank; within each group ranks are strictly increasing (global rank
order); and the spec's example holds: ranks `[1: panel 7, 2: panel 8,
3: panel 7]` yield group order `[7, 8]` with panel 7 keeping `[1, 3]`. -/
theorem C8_assembler_ordering (objects : List RObj) :
    ((((assemble objects).flatMap (fun g => g.2)).map Prod.fst).Perm
        (List.range' 1 objects.length)) ∧
    ((((assemble objects).flatMap (fun g => g.2)).map Prod.snd).Perm objects) ∧
    (∀ g ∈ assemble objects, ∀ x ∈ g.2, keyOf x.2 = g.1) ∧
    ((assemble objects).Pairwise
      (fun g h => (minRankOpt g.2).getD 0 ≤ (minRankOpt h.2).getD 0)) ∧
    (∀ g ∈ assemble objects, g.2.Pairwise (fun a b => a.1 < b.1)) ∧
    assemble [sampleObj, sampleObj2, sampleObj3]
      = [("7", [(1, sampleObj), (3, sampleObj3)]), ("8", [(2, sampleObj2)])] := by
  have hflat := assemble_flatMap_perm objects
  refine ⟨?_, ?_, ?_, ?_, ?_, by decide⟩
  · have := hflat.map Prod.fst
    rwa [rankedOf_fst] at this
  · have := hflat.map Prod.snd
    rwa [rankedOf_snd] at this
  · intro g hg x hx
    unfold assemble at hg
    dsimp only at hg
    rcases List.mem_map.mp hg with ⟨g', hg', rfl⟩
    have hg2 : g' ∈ groupFold (rankedOf objects) := (sortAscK_perm _ _).mem_iff.mp hg'
    have hx2 : x ∈ g'.2 := (sortAscK_perm _ _).mem_iff.mp hx
    exact groupFold_goodkeys (rankedOf objects) [] (by intro g hg0; cases hg0) g' hg2 x hx2
  · unfold assemble
    dsimp only
    rw [List.pairwise_map]
    refine (sortAscK_pairwise (fun g => (minRankOpt g.2).getD 0)
      (groupFold (rankedOf objects))).imp ?_
    intro a b hab
    dsimp only
    rw [minRankOpt_perm (sortAscK_perm _ _), minRankOpt_perm (sortAscK_perm _ _)]
    exact hab
  · intro g hg
    unfold assemble at hg
    dsimp only at hg
    rcases List.mem_map.mp hg with ⟨g', hg', rfl⟩
    have hg2 : g' ∈ groupFold (rankedOf objects) := (sortAscK_perm _ _).mem_iff.mp hg'
    have hsub : g'.2.Sublist (rankedOf objects) := groupFold_sublist (rankedOf objects) g' hg2
    have hlt : g'.2.Pairwise (fun a b => a.1 < b.1) :=
      (rankedOf_pairwise objects).sublist hsub
    have hne : (sortAscK (fun it => it.1) g'.2).Pairwise (fun a b => a.1 ≠ b.1) := by
      refine ((sortAscK_perm (fun it => it.1) g'.2).pairwise_iff ?_).mpr
        (hlt.imp (fun h => Nat.ne_of_lt h))
      intro a b hab he
      exact hab he.symm
    have hle : (sortAscK (fun it => it.1) g'.2).Pairwise (fun a b => a.1 ≤ b.1) :=
      sortAscK_pairwise (fun it => it.1) g'.2
    exact (hle.and hne).imp (fun h => lt_of_le_of_ne h.1 h.2)

/-- C8 witness: the grouping invariant of the theorem applied at the concrete
three-chunk example. -/
theorem C8_witness : keyOf sampleObj = "7" :=
  (C8_assembler_ordering [sampleObj, sampleObj2, sampleObj3]).2.2.1
    ("7", [(1, sampleObj), (3, sampleObj3)]) (by decide) (1, sampleObj) (by decide)

/-! ## Claim C3 -/

/-- C3: dual-typed panel metadata lookup.  The string-typed equality fetch
is attempted first, and its successful result is used; only when it raises
is the code coerced with `int(...)` and the integer-typed fetch attempted, so
a record whose `panel_code` is stored as an integer is still resolved from
string input (witnessed below with the integer-stored code 333 and input
`"333"`). -/
theorem C3_dual_typed_lookup (client : WClient) (coll : PanelsColl) (code : String)
    (n : Int) (err : PyErr) (o : PanelProps) (rest : List PanelProps)
    (hg : client.getPanels = .ok coll) (hc : code ≠ "") :
    (coll.fetchEqStr code = .ok (o :: rest) →
      get_panel_metadata client code = .ok (some (extractMeta o))) ∧
    (coll.fetchEqStr code = .error err → pyInt code = some n →
      coll.fetchEqInt n = .ok (o :: rest) →
      get_panel_metadata client code = .ok (some (extractMeta o))) := by
  constructor
  · intro hs
    simp [get_panel_metadata, hc, hg, hs, pyCatch]
  · intro hs hn hi
    simp [get_panel_metadata, hc, hg, hs, hn, hi, pyCatch]

/-- C3 witness: a store whose string-typed filter raises on the
integer-stored code `333`; lookup with the string `"333"` resolves the
record. -/
theorem C3_witness :
    get_panel_metadata client333 "333" = .ok (some (extractMeta rec333)) :=
  (C3_dual_typed_lookup client333 coll333 "333" 333 .typeMismatch rec333 []
      rfl (by decide)).2 rfl (by decide) (by decide)

/-! ## Claim C4 -/

theorem pyCatch_ok {α : Type} (body : Except PyErr α) (f : PyErr → α) :
    ∃ a, pyCatch body (fun e => .ok (f e)) = .ok a := by
  cases body with
  | ok a => exact ⟨a, rfl⟩
  | error e => exact ⟨f e, rfl⟩

/-- C4: the metadata lookup and the theme/panel enumeration functions never
propagate a store exception: every call returns `ok` (the outer `except`
blocks absorb every raise), and when the collection handle or every fetch
raises, the result is exactly the empty dict / empty list. -/
theorem C4_store_errors_soft :
    (∀ (client : WClient) (code : String),
      (∃ d, get_panel_metadata client code = .ok d) ∧
      (∃ t, get_all_themes client = .ok t) ∧
      (∃ p, get_all_panels client = .ok p)) ∧
    (∀ (client : WClient) (code : String) (e : PyErr),
      client.getPanels = .error e →
      get_panel_metadata client code = .ok none ∧
      get_all_themes client = .ok [] ∧
      get_all_panels client = .ok []) ∧
    (∀ (client : WClient) (coll : PanelsColl) (code : String),
      client.getPanels = .ok coll →
      (∀ s, ∃ e, coll.fetchEqStr s = .error e) →
      (∀ m : Int, ∃ e, coll.fetchEqInt m = .error e) →
      (∃ e, coll.fetchAll = .error e) →
      get_panel_metadata client code = .ok none ∧
      get_all_themes client = .ok [] ∧
      get_all_panels client = .ok []) := by
  refine ⟨?_, ?_, ?_⟩
  · intro client code
    refine ⟨?_, ?_, ?_⟩
    · unfold get_panel_metadata
      by_cases hc : code = ""
      · rw [if_pos hc]
        exact ⟨none, rfl⟩
      · rw [if_neg hc]
        exact pyCatch_ok _ (fun _ => none)
    · unfold get_all_themes
      exact pyCatch_ok _ (fun _ => [])
    · unfold get_all_panels
      exact pyCatch_ok _ (fun _ => [])
  · intro client code e hg
    by_cases hc : code = ""
    · subst hc
      exact ⟨rfl, by simp [get_all_themes, hg, pyCatch], by simp [get_all_panels, hg, pyCatch]⟩
    · exact ⟨by simp [get_panel_metadata, hc, hg, pyCatch],
        by simp [get_all_themes, hg, pyCatch],
        by simp [get_all_panels, hg, pyCatch]⟩
  · intro client coll code hg hstr hint hall
    obtain ⟨e1, he1⟩ := hstr code
    obtain ⟨e3, he3⟩ := hall
    refine ⟨?_, by simp [get_all_themes, hg, he3, pyCatch],
      by simp [get_all_panels, hg, he3, pyCatch]⟩
    by_cases hc : code = ""
    · subst hc
      rfl
    · rcases hi : pyInt code with - | n
      · simp [get_panel_metadata, hc, hg, he1, hi, pyCatch]
      · obtain ⟨e2, he2⟩ := hint n
        simp [get_panel_metadata, hc, hg, he1, hi, he2, pyCatch]

/-- C4 witness: a dead client (the collection handle raises a connection
failure): all three functions return empty results. -/
theorem C4_witness :
    get_panel_metadata deadClient "333" = .ok none ∧
    get_all_themes deadClient = .ok [] ∧
    get_all_panels deadClient = .ok [] :=
  C4_store_errors_soft.2.1 deadClient "333" .connFail rfl

/-! ## Claim C9 -/

/-- C9: retrieval filters are conjunctive.  With both selections made, the
effective predicate is the conjunction of the theme predicate and the panel
predicate; with one, only that predicate; with neither, no predicate; hence
the doubly-filtered result set is a subset of either singly-filtered set. -/
theorem C9_conjunctive_filters (chunks : List RObj) (t p : String)
    (ht : t ≠ "All") (hp : p ≠ "All") :
    retrieveFiltered t p chunks
        = chunks.filter (fun o => themeFilter t o && panelFilter (extractPanelCode p) o) ∧
    retrieveFiltered t "All" chunks = chunks.filter (themeFilter t) ∧
    retrieveFiltered "All" p chunks = chunks.filter (panelFilter (extractPanelCode p)) ∧
    retrieveFiltered "All" "All" chunks = chunks ∧
    (∀ o ∈ retrieveFiltered t p chunks, o ∈ retrieveFiltered t "All" chunks) ∧
    (∀ o ∈ retrieveFiltered t p chunks, o ∈ retrieveFiltered "All" p chunks) := by
  have h1 : retrieveFiltered t p chunks
      = chunks.filter (fun o => themeFilter t o && panelFilter (extractPanelCode p) o) := by
    simp [retrieveFiltered, searchFilters, whereOf, applyWhere, ht, hp]
  have h2 : retrieveFiltered t "All" chunks = chunks.filter (themeFilter t) := by
    simp [retrieveFiltered, searchFilters, whereOf, applyWhere, ht]
  have h3 : retrieveFiltered "All" p chunks
      = chunks.filter (panelFilter (extractPanelCode p)) := by
    simp [retrieveFiltered, searchFilters, whereOf, applyWhere, hp]
  refine ⟨h1, h2, h3, by simp [retrieveFiltered, searchFilters, whereOf, applyWhere], ?_, ?_⟩
  · intro o ho
    rw [h1] at ho
    rw [h2]
    have := List.mem_filter.mp ho
    exact List.mem_filter.mpr ⟨this.1, ((Bool.and_eq_true _ _).mp this.2).1⟩
  · intro o ho
    rw [h1] at ho
    rw [h3]
    have := List.mem_filter.mp ho
    exact List.mem_filter.mpr ⟨this.1, ((Bool.and_eq_true _ _).mp this.2).2⟩

/-- C9 witness: the conjunction at a concrete theme/panel selection. -/
theorem C9_witness :
    retrieveFiltered "Security" "Panel 8 - t" [sampleObj, sampleObj2]
      = [sampleObj, sampleObj2].filter
          (fun o => themeFilter "Security" o &&
            panelFilter (extractPanelCode "Panel 8 - t") o) :=
  (C9_conjunctive_filters [sampleObj, sampleObj2] "Security" "Panel 8 - t"
    (by decide) (by decide)).1

/-! ## Claim C10 -/

/-- C10 counterexample.  The claim asserts that every non-digit code is
placed after all numeric codes, for every store contents.  The sort key is
`int(code) if code.isdigit() else 999999`, so the numeric code `1000000`
(key 1000000) sorts **after** the non-digit code `"abc"` (key 999999). -/
theorem C10_counterexample :
    get_all_panels clientBig
      = .ok [("abc", "Panel abc"), ("1000000", "Panel 1000000")] ∧
    numericSegregated [("abc", "Panel abc"), ("1000000", "Panel 1000000")] = false :=
  ⟨by decide, by decide⟩

/-- C10 (amended): `get_all_panels` returns the accumulated
`(code, display)` pairs stably sorted in ascending order of the key
`int(code)` for pure-digit codes and the sentinel `999999` otherwise.
Consequently a non-digit code precedes a numeric one only when that numeric
code's value is at least `999999`; non-digit codes follow all numeric codes
with value below the sentinel. -/
theorem C10_panel_sort_amended (client : WClient) (coll : PanelsColl)
    (objs : List PanelProps) (hg : client.getPanels = .ok coll)
    (hf : coll.fetchAll = .ok objs) :
    get_all_panels client
        = .ok (sortAscK (fun q => panelSortKey q.1) (buildPanels objs)) ∧
    (sortAscK (fun q => panelSortKey q.1) (buildPanels objs)).Pairwise
      (fun a b => panelSortKey a.1 ≤ panelSortKey b.1) ∧
    (∀ c : Int,
      (sortAscK (fun q => panelSortKey q.1) (buildPanels objs)).filter
          (fun q => decide (panelSortKey q.1 = c))
        = (buildPanels objs).filter (fun q => decide (panelSortKey q.1 = c))) ∧
    (sortAscK (fun q => panelSortKey q.1) (buildPanels objs)).Pairwise
      (fun a b => pyIsDigit a.1.data = false → pyIsDigit b.1.data = true →
        (999999 : Int) ≤ panelSortKey b.1) := by
  refine ⟨by simp [get_all_panels, hg, hf, pyCatch], sortAscK_pairwise _ _,
    fun c => sortAscK_filter _ _ c, ?_⟩
  refine (sortAscK_pairwise (fun q => panelSortKey q.1) (buildPanels objs)).imp ?_
  intro a b hab hnd _
  have ha : panelSortKey a.1 = 999999 := by
    unfold panelSortKey
    rw [if_neg]
    simp [hnd]
  rw [ha] at hab
  exact hab

/-- C10 witness: the amended sorting law at the concrete two-record store. -/
theorem C10_witness :
    get_all_panels clientBig
      = .ok (sortAscK (fun q => panelSortKey q.1) (buildPanels [recAbc, recBig])) :=
  (C10_panel_sort_amended clientBig collBig [recAbc, recBig] rfl rfl).1

end CSPC
